import Mathlib

/-!
Shallow embedding of `src/tools/atlasgen/src/cgltf_write.h` (a single-file
glTF 2.0 writer, C99) and proofs about it.

Modelling conventions:
* The output sink (`FILE*`) is modelled as an append-only list of string
  chunks, one chunk per `fputs`/`fputc`/`fprintf` call, in emission order.
  The produced text is the concatenation of the chunks.
* C pointers into an entity collection are modelled as element-granular
  addresses (`Nat`); a reference field is `Option Nat`, `none` standing for
  the C `NULL` pointer.  The pointer subtraction `val - start` of the source
  becomes integer subtraction of addresses.
* `fopen` succeeding or failing is modelled by a boolean `openOk` passed to
  `cgltf_write_file`.  The C source never tests the `FILE*` returned by
  `fopen`, hence the Lean body never reads `openOk`.
* Machine `int` values are modelled as `Int`.
-/

/-- Result codes of the cgltf API.  Modelled minimally: the writer in the
source only ever produces `success` (`cgltf.h` itself is not part of this
repository's sources). -/
inductive cgltf_result where
  | success
  | io_error
deriving DecidableEq

/-- Options argument of `cgltf_write_file` (the `cgltf_options` struct of
`cgltf.h`, not in this repository).  Its fields are irrelevant here: the body
of `cgltf_write_file` (source lines 173-234) never reads `options`, so a
single placeholder field suffices. -/
structure cgltf_options where
  placeholder : Nat
deriving DecidableEq

/-- `cgltf_asset`: four optional C strings (`NULL` = `none`). -/
structure cgltf_asset where
  copyright : Option String
  generator : Option String
  version : Option String
  min_version : Option String
deriving DecidableEq

/-- `cgltf_attribute`: an attribute name and a pointer to an accessor
(`data`), `none` = `NULL`. -/
structure cgltf_attribute where
  name : String
  data : Option Nat
deriving DecidableEq

/-- `cgltf_primitive`: topology mode (`type`, a C enum, triangles = 4),
optional accessor reference `indices`, optional material reference
`material`, and the attribute array. -/
structure cgltf_primitive where
  type : Int
  indices : Option Nat
  material : Option Nat
  attributes : List cgltf_attribute
deriving DecidableEq

/-- `cgltf_mesh`: optional name and the primitives array. -/
structure cgltf_mesh where
  name : Option String
  primitives : List cgltf_primitive
deriving DecidableEq

/-- `cgltf_data`: the document.  `accessors` and `materials` are the base
addresses of the corresponding entity arrays (the source only uses the base
pointers `data->accessors` / `data->materials` for pointer-difference
computations); the `_count` fields record the collection sizes for the
referential-integrity precondition. -/
structure cgltf_data where
  asset : cgltf_asset
  meshes : List cgltf_mesh
  accessors : Nat
  accessors_count : Nat
  materials : Nat
  materials_count : Nat
deriving DecidableEq

/-- `cgltf_write_context` (source lines 52-58): output sink, document
pointer, nesting depth, indent unit, pending-separator flag. -/
structure cgltf_write_context where
  out : List String
  data : cgltf_data
  depth : Int
  indent : String
  needs_comma : Bool
deriving DecidableEq

/-- One C stdio write call: append one chunk to the sink. -/
def fputs (s : String) (c : cgltf_write_context) : cgltf_write_context :=
  ⟨c.out ++ [s], c.data, c.depth, c.indent, c.needs_comma⟩

/-- `cgltf_write_cont` (source lines 60-73): write `line`; if it begins with
a closing bracket set `needs_comma`; if it ends with an opening bracket
increment `depth` and clear `needs_comma`. -/
def cgltf_write_cont (c : cgltf_write_context) (line : String) : cgltf_write_context :=
  let c1 := fputs line c
  let c2 := if line.front = ']' ∨ line.front = '\x7d' then
              ⟨c1.out, c1.data, c1.depth, c1.indent, true⟩
            else c1
  if line.back = '[' ∨ line.back = '\x7b' then
    ⟨c2.out, c2.data, c2.depth + 1, c2.indent, false⟩
  else c2

/-- `cgltf_write_indent` (source lines 75-89): emit `",\n"` if a separator is
pending (clearing the flag), else `"\n"`; then emit `depth` copies of the
indent unit. -/
def cgltf_write_indent (c : cgltf_write_context) : cgltf_write_context :=
  let c1 := if c.needs_comma then
              let ca := fputs ",\n" c
              ⟨ca.out, ca.data, ca.depth, ca.indent, false⟩
            else fputs "\n" c
  ⟨c1.out ++ List.replicate c1.depth.toNat c1.indent, c1.data, c1.depth, c1.indent, c1.needs_comma⟩

/-- `cgltf_write_line` (source lines 91-100): if `line` begins with a closing
bracket, decrement `depth` and clear `needs_comma` first; then indent and
continue with `line`. -/
def cgltf_write_line (c : cgltf_write_context) (line : String) : cgltf_write_context :=
  let c1 := if line.front = ']' ∨ line.front = '\x7d' then
              ⟨c.out, c.data, c.depth - 1, c.indent, false⟩
            else c
  cgltf_write_cont (cgltf_write_indent c1) line

/-- `cgltf_write_strprop` (source lines 102-110): if `val` is non-`NULL`,
indent, print `'label': 'val'`, set `needs_comma`. -/
def cgltf_write_strprop (c : cgltf_write_context) (label : String) (val : Option String) :
    cgltf_write_context :=
  match val with
  | none => c
  | some v =>
    let c1 := cgltf_write_indent c
    let c2 := fputs ("\x27" ++ label ++ "\x27: \x27" ++ v ++ "\x27") c1
    ⟨c2.out, c2.data, c2.depth, c2.indent, true⟩

/-- `cgltf_write_intprop` (source lines 112-120): if `val ≠ defVal`, indent,
print `'label': val`, set `needs_comma`. -/
def cgltf_write_intprop (c : cgltf_write_context) (label : String) (val : Int) (defVal : Int) :
    cgltf_write_context :=
  if val = defVal then c
  else
    let c1 := cgltf_write_indent c
    let c2 := fputs ("\x27" ++ label ++ "\x27: " ++ toString val) c1
    ⟨c2.out, c2.data, c2.depth, c2.indent, true⟩

/-- The `cgltf_write_idxprop` macro (source lines 122-125): if `val` is
non-`NULL`, indent, print `'label': (int)(val - start)`, set `needs_comma`. -/
def cgltf_write_idxprop (c : cgltf_write_context) (label : String) (val : Option Nat)
    (start : Nat) : cgltf_write_context :=
  match val with
  | none => c
  | some addr =>
    let c1 := cgltf_write_indent c
    let c2 := fputs ("\x27" ++ label ++ "\x27: " ++ toString ((addr : Int) - (start : Int))) c1
    ⟨c2.out, c2.data, c2.depth, c2.indent, true⟩

/-- `cgltf_write_asset` (source lines 127-135). -/
def cgltf_write_asset (c : cgltf_write_context) (asset : cgltf_asset) : cgltf_write_context :=
  let c1 := cgltf_write_line c "\x27asset\x27: \x7b"
  let c2 := cgltf_write_strprop c1 "copyright" asset.copyright
  let c3 := cgltf_write_strprop c2 "generator" asset.generator
  let c4 := cgltf_write_strprop c3 "version" asset.version
  let c5 := cgltf_write_strprop c4 "min_version" asset.min_version
  cgltf_write_line c5 "\x7d"

/-- Tail of `cgltf_write_primitive` after the mode property (source lines
140-149): indices and material references, then the attributes construct. -/
def primAfterMode (c : cgltf_write_context) (prim : cgltf_primitive) : cgltf_write_context :=
  let c1 := cgltf_write_idxprop c "indices" prim.indices c.data.accessors
  let c2 := cgltf_write_idxprop c1 "material" prim.material c1.data.materials
  let c3 := cgltf_write_line c2 "\x27attributes\x27: ["
  let c4 := prim.attributes.foldl
    (fun acc attr => cgltf_write_idxprop acc attr.name attr.data acc.data.accessors) c3
  cgltf_write_line c4 "]"

/-- `cgltf_write_primitive` (source lines 137-152): mode property with
default 4 (triangles), then the rest. -/
def cgltf_write_primitive (c : cgltf_write_context) (prim : cgltf_primitive) :
    cgltf_write_context :=
  primAfterMode (cgltf_write_intprop c "mode" prim.type 4) prim

/-- `cgltf_write_mesh` (source lines 154-171). -/
def cgltf_write_mesh (c : cgltf_write_context) (mesh : cgltf_mesh) : cgltf_write_context :=
  let c1 := cgltf_write_line c "\x7b"
  let c2 := cgltf_write_strprop c1 "name" mesh.name
  let c3 := cgltf_write_line c2 "\x27primitives\x27: ["
  let c4 := mesh.primitives.foldl
    (fun acc p => cgltf_write_line (cgltf_write_primitive (cgltf_write_line acc "\x7b") p) "\x7d")
    c3
  let c5 := cgltf_write_line c4 "]"
  cgltf_write_line c5 "\x7d"

/-- `cgltf_write_file` (source lines 173-234).  The source calls
`fopen(path, "wt")` and never tests the result (`openOk` is consequently
never read), initialises the context with depth 1, two-space indent and no
pending separator, writes the root construct, the conditional asset block,
the meshes, fifteen empty placeholder categories, the closing bracket, and
unconditionally returns `cgltf_result_success`. -/
def cgltf_write_file (options : cgltf_options) (openOk : Bool) (data : cgltf_data) :
    cgltf_result × List String :=
  let c0 : cgltf_write_context := ⟨[], data, 1, "  ", false⟩
  let c1 := fputs "\x7b" c0
  let c2 := if data.asset.copyright.isSome || data.asset.generator.isSome
               || data.asset.version.isSome || data.asset.min_version.isSome then
              cgltf_write_asset c1 data.asset
            else c1
  let c3 := cgltf_write_line c2 "\x27meshes\x27: ["
  let c4 := data.meshes.foldl cgltf_write_mesh c3
  let c5 := cgltf_write_line c4 "]"
  let c6 := cgltf_write_line c5 "\x27accessors\x27: \x7b"
  let c7 := cgltf_write_line c6 "\x7d"
  let c8 := cgltf_write_line c7 "\x27bufferViews\x27: \x7b"
  let c9 := cgltf_write_line c8 "\x7d"
  let c10 := cgltf_write_line c9 "\x27buffers\x27: \x7b"
  let c11 := cgltf_write_line c10 "\x7d"
  let c12 := cgltf_write_line c11 "\x27materials\x27: \x7b"
  let c13 := cgltf_write_line c12 "\x7d"
  let c14 := cgltf_write_line c13 "\x27images\x27: \x7b"
  let c15 := cgltf_write_line c14 "\x7d"
  let c16 := cgltf_write_line c15 "\x27textures\x27: \x7b"
  let c17 := cgltf_write_line c16 "\x7d"
  let c18 := cgltf_write_line c17 "\x27samplers\x27: \x7b"
  let c19 := cgltf_write_line c18 "\x7d"
  let c20 := cgltf_write_line c19 "\x27skins\x27: \x7b"
  let c21 := cgltf_write_line c20 "\x7d"
  let c22 := cgltf_write_line c21 "\x27cameras\x27: \x7b"
  let c23 := cgltf_write_line c22 "\x7d"
  let c24 := cgltf_write_line c23 "\x27nodes\x27: \x7b"
  let c25 := cgltf_write_line c24 "\x7d"
  let c26 := cgltf_write_line c25 "\x27scenes\x27: \x7b"
  let c27 := cgltf_write_line c26 "\x7d"
  let c28 := cgltf_write_line c27 "\x27scene\x27: \x7b"
  let c29 := cgltf_write_line c28 "\x7d"
  let c30 := cgltf_write_line c29 "\x27animations\x27: \x7b"
  let c31 := cgltf_write_line c30 "\x7d"
  let c32 := fputs "\n\x7d\n" c31
  (cgltf_result.success, c32.out)

/-! ### Derived descriptions of the emitted chunks -/

/-- The chunks `cgltf_write_indent` appends: the separator or plain newline,
then `depth` copies of the indent unit. -/
def indentChunks (c : cgltf_write_context) : List String :=
  (if c.needs_comma then [",\n"] else ["\n"]) ++ List.replicate c.depth.toNat c.indent

/-- The chunk printed by `cgltf_write_strprop` for label/value. -/
def strChunk (label v : String) : String :=
  "\x27" ++ label ++ "\x27: \x27" ++ v ++ "\x27"

/-- The chunk printed by `cgltf_write_intprop` / `cgltf_write_idxprop`. -/
def intChunk (label : String) (v : Int) : String :=
  "\x27" ++ label ++ "\x27: " ++ toString v

/-! ### Shared concrete inputs used by witnesses and counterexamples -/

/-- A small concrete document: empty asset metadata, no meshes. -/
def dataW : cgltf_data := ⟨⟨none, none, none, none⟩, [], 100, 4, 200, 2⟩

/-- A concrete options value. -/
def optsW : cgltf_options := ⟨0⟩

/-- A freshly initialised concrete write context (as `cgltf_write_file` makes
it: depth 1, two-space indent, no pending separator, empty sink). -/
def ctxW : cgltf_write_context := ⟨[], dataW, 1, "  ", false⟩

/-! ### Well-formed emitter call sequences (claims C3 and C4) -/

/-- Characters `cgltf_write_line` / `cgltf_write_cont` treat as closing
brackets when first in a line. -/
def isCloserChar (ch : Char) : Prop := ch = ']' ∨ ch = '\x7d'

/-- Characters treated as opening brackets when last in a line. -/
def isOpenerChar (ch : Char) : Prop := ch = '[' ∨ ch = '\x7b'

instance (ch : Char) : Decidable (isCloserChar ch) := by
  unfold isCloserChar; infer_instance

instance (ch : Char) : Decidable (isOpenerChar ch) := by
  unfold isOpenerChar; infer_instance

/-- A line that opens a construct: it does not begin with a closing bracket
and ends with an opening bracket. -/
def OpenLine (s : String) : Prop := ¬ isCloserChar s.front ∧ isOpenerChar s.back

/-- A line that closes a construct: it begins with a closing bracket and
does not end with an opening bracket. -/
def CloseLine (s : String) : Prop := isCloserChar s.front ∧ ¬ isOpenerChar s.back

instance (s : String) : Decidable (OpenLine s) := by
  unfold OpenLine; infer_instance

instance (s : String) : Decidable (CloseLine s) := by
  unfold CloseLine; infer_instance

/-- Number of item separators among the emitted chunks (each separator is
the `",\n"` chunk written by `cgltf_write_indent`). -/
def sepCount (out : List String) : Nat := out.count ",\n"

/-- One emitter call inside a construct body: a construct line handed to
`cgltf_write_line`, or a property emission (`strprop` with a non-null value,
`intprop`, `idxprop` with a non-null reference). -/
inductive EmitterCall where
  | line : String → EmitterCall
  | strp : String → String → EmitterCall
  | intp : String → Int → Int → EmitterCall
  | idxp : String → Nat → Nat → EmitterCall

/-- Execute one emitter call on the write context. -/
def runCall (c : cgltf_write_context) : EmitterCall → cgltf_write_context
  | .line s => cgltf_write_line c s
  | .strp label v => cgltf_write_strprop c label (some v)
  | .intp label v d => cgltf_write_intprop c label v d
  | .idxp label addr base => cgltf_write_idxprop c label (some addr) base

/-- Execute a sequence of emitter calls. -/
def runCalls (c : cgltf_write_context) (calls : List EmitterCall) : cgltf_write_context :=
  calls.foldl runCall c

/-- `ChildSeq calls n t a`: `calls` is a well-formed construct body of `n`
children (a child is an emitting property line or a whole balanced nested
construct).  Run with no pending separator it emits `t` separators at this
nesting level — between its own children, which is `n - 1` of them — and
`a` separators in total, including those inside nested construct bodies. -/
inductive ChildSeq : List EmitterCall → Nat → Nat → Nat → Prop where
  | nil : ChildSeq [] 0 0 0
  | strp (label v : String) (rest : List EmitterCall) (n t a : Nat) :
      ChildSeq rest n t a →
      ChildSeq (.strp label v :: rest) (n + 1) (t + min n 1) (a + min n 1)
  | intp (label : String) (v d : Int) (rest : List EmitterCall) (n t a : Nat)
      (hv : v ≠ d) :
      ChildSeq rest n t a →
      ChildSeq (.intp label v d :: rest) (n + 1) (t + min n 1) (a + min n 1)
  | idxp (label : String) (addr base : Nat) (rest : List EmitterCall) (n t a : Nat) :
      ChildSeq rest n t a →
      ChildSeq (.idxp label addr base :: rest) (n + 1) (t + min n 1) (a + min n 1)
  | construct (o cl : String) (body rest : List EmitterCall) (m bt ba n t a : Nat)
      (ho : OpenLine o) (hcl : CloseLine cl) :
      ChildSeq body m bt ba →
      ChildSeq rest n t a →
      ChildSeq (.line o :: (body ++ .line cl :: rest)) (n + 1) (t + min n 1)
        (a + ba + min n 1)

/-- The end-to-end document of claim C8: one mesh named "Plane", one
primitive with default (triangles) topology, indices = accessor 0 (address
100 in the accessor array based at 100), material = material 1 (address 201
in the material array based at 200), attributes POSITION -> accessor 2 and
NORMAL -> accessor 3. -/
def dataC8 : cgltf_data :=
  ⟨⟨none, none, none, none⟩,
   [⟨some "Plane",
     [⟨4, some 100, some 201, [⟨"POSITION", some 102⟩, ⟨"NORMAL", some 103⟩]⟩]⟩],
   100, 4, 200, 2⟩

/-! ### Separator-before-closer analysis and asset-block membership
(claims C6 and C9) -/

/-- The line that opens the asset block. -/
def assetLine : String := "\x27asset\x27: \x7b"

/-- Classification of one sink chunk for separator-placement analysis. -/
inductive ChunkKind where
  | sep
  | ws
  | closer
  | other
deriving DecidableEq

/-- Whitespace characters of the emitted text. -/
def wsChar (ch : Char) : Bool := ch = ' ' || ch = '\n'

/-- Kind of a chunk: the separator chunk `",\n"` itself; all-whitespace;
first visible character a closing bracket; anything else. -/
def chunkKind (s : String) : ChunkKind :=
  if s = ",\n" then .sep
  else
    match s.data.find? (fun ch => !(wsChar ch)) with
    | none => .ws
    | some ch => if ch = ']' || ch = '\x7d' then .closer else .other

/-- State of the left-to-right separator scan: `bad` records that some
separator chunk was followed — with only whitespace in between — by a chunk
whose first visible character is a closing bracket; `pend` records that the
most recent visible chunk was a separator. -/
structure SepScan where
  bad : Bool
  pend : Bool
deriving DecidableEq

/-- Scan transition on one chunk kind. -/
def sepStep (st : SepScan) (k : ChunkKind) : SepScan :=
  match k with
  | .sep => ⟨st.bad, true⟩
  | .ws => st
  | .closer => ⟨st.bad || st.pend, false⟩
  | .other => ⟨st.bad, false⟩

/-- Run the separator scan over a chunk list from a given state. -/
def scanFrom (st : SepScan) (out : List String) : SepScan :=
  (out.map chunkKind).foldl sepStep st

/-- Run the separator scan over a chunk list. -/
def scanChunks (out : List String) : SepScan := scanFrom ⟨false, false⟩ out

/-- The produced text contains an item separator immediately preceding a
closing bracket: some `",\n"` separator chunk emitted by the writer is
followed, with only whitespace in between, by a chunk whose first visible
character is `]` or a closing brace. -/
def sepBeforeCloser (out : List String) : Prop := (scanChunks out).bad = true

/-- Good intermediate context for the document-driver walk: two-space
indent unit, and no separator-before-closer so far with no separator
pending. -/
def GoodC (c : cgltf_write_context) : Prop :=
  c.indent = "  " ∧ scanChunks c.out = ⟨false, false⟩

/-- Non-emptiness of an asset field in the sense of the claim: present and
not the empty string. -/
def assetFieldNonEmpty (v : Option String) : Bool :=
  match v with
  | none => false
  | some s => !s.isEmpty

/-- A document whose only present asset field is an empty string. -/
def dataE : cgltf_data := ⟨⟨some "", none, none, none⟩, [], 0, 0, 0, 0⟩

/-! ### Theorems -/

theorem indent_eq (c : cgltf_write_context) :
    cgltf_write_indent c = ⟨c.out ++ indentChunks c, c.data, c.depth, c.indent, false⟩ := by
  cases h : c.needs_comma <;>
    simp [cgltf_write_indent, fputs, indentChunks, h]

theorem wl_open (c : cgltf_write_context) (line : String)
    (h1 : ¬(line.front = ']' ∨ line.front = '\x7d'))
    (h2 : line.back = '[' ∨ line.back = '\x7b') :
    cgltf_write_line c line =
      ⟨c.out ++ indentChunks c ++ [line], c.data, c.depth + 1, c.indent, false⟩ := by
  simp [cgltf_write_line, if_neg h1, indent_eq, cgltf_write_cont, fputs, if_pos h2,
    List.append_assoc]

theorem wl_close (c : cgltf_write_context) (line : String)
    (h1 : line.front = ']' ∨ line.front = '\x7d')
    (h2 : ¬(line.back = '[' ∨ line.back = '\x7b')) :
    cgltf_write_line c line =
      ⟨c.out ++ ("\n" :: List.replicate (c.depth - 1).toNat c.indent ++ [line]),
        c.data, c.depth - 1, c.indent, true⟩ := by
  simp only [cgltf_write_line, if_pos h1, indent_eq, cgltf_write_cont, fputs, if_neg h2]
  simp [if_pos h1, indentChunks, List.append_assoc]

theorem strprop_none (c : cgltf_write_context) (label : String) :
    cgltf_write_strprop c label none = c := rfl

theorem strprop_some (c : cgltf_write_context) (label v : String) :
    cgltf_write_strprop c label (some v) =
      ⟨c.out ++ indentChunks c ++ [strChunk label v], c.data, c.depth, c.indent, true⟩ := by
  simp [cgltf_write_strprop, indent_eq, fputs, strChunk, List.append_assoc]

theorem intprop_default (c : cgltf_write_context) (label : String) (v : Int) :
    cgltf_write_intprop c label v v = c := by
  simp [cgltf_write_intprop]

theorem intprop_ne (c : cgltf_write_context) (label : String) (v defVal : Int)
    (h : v ≠ defVal) :
    cgltf_write_intprop c label v defVal =
      ⟨c.out ++ indentChunks c ++ [intChunk label v], c.data, c.depth, c.indent, true⟩ := by
  simp [cgltf_write_intprop, if_neg h, indent_eq, fputs, intChunk, List.append_assoc]

theorem idxprop_none (c : cgltf_write_context) (label : String) (start : Nat) :
    cgltf_write_idxprop c label none start = c := rfl

theorem idxprop_some (c : cgltf_write_context) (label : String) (addr start : Nat) :
    cgltf_write_idxprop c label (some addr) start =
      ⟨c.out ++ indentChunks c ++ [intChunk label ((addr : Int) - (start : Int))],
        c.data, c.depth, c.indent, true⟩ := by
  simp [cgltf_write_idxprop, indent_eq, fputs, intChunk, List.append_assoc]

/-- Claim C10: the output of `cgltf_write_file` does not depend on its
`options` argument — for every path (modelled by `openOk`) and document, any
two options values give identical results.  The source body never reads
`options`. -/
theorem claim_C10_options_never_read :
    ∀ (o1 o2 : cgltf_options) (ok : Bool) (d : cgltf_data),
      cgltf_write_file o1 ok d = cgltf_write_file o2 ok d :=
  fun _ _ _ _ => rfl

set_option maxRecDepth 200000 in
/-- Claim C1 (code bug): the claim says an unopenable destination aborts the
write with a failure, but the source never tests the `FILE*` returned by
`fopen`: evaluated at a failing open (`openOk = false`), the writer runs to
completion (nonempty output was pushed to the sink) and still reports
`cgltf_result_success`. -/
theorem claim_C1_open_failure_still_succeeds :
    (cgltf_write_file optsW false dataW).1 = cgltf_result.success ∧
      (cgltf_write_file optsW false dataW).2 ≠ [] := by
  constructor
  · rfl
  · decide

/-- Claim C2 counterexample: the claim says `cgltf_write_strprop` is a no-op
when the value is the empty string; in the source the test `if (val)` is a
null-pointer test only, so an empty string is emitted like any other value:
at a concrete context the sink grows. -/
theorem claim_C2_counterexample :
    (cgltf_write_strprop ctxW "name" (some "")).out ≠ ctxW.out := by
  decide

/-- Claim C2 as amended: `cgltf_write_strprop` is a no-op exactly when the
value is absent (null); when the value is present — including the empty
string — it appends the separator-or-newline, the indentation, and the
quoted property line, sets `needs_comma`, and leaves `depth` unchanged. -/
theorem claim_C2_strprop_noop_only_for_null :
    ∀ (c : cgltf_write_context) (label : String),
      cgltf_write_strprop c label none = c ∧
      ∀ v : String,
        (cgltf_write_strprop c label (some v)).out =
            c.out ++ indentChunks c ++ [strChunk label v] ∧
        (cgltf_write_strprop c label (some v)).needs_comma = true ∧
        (cgltf_write_strprop c label (some v)).depth = c.depth := by
  intro c label
  refine ⟨strprop_none c label, ?_⟩
  intro v
  rw [strprop_some]
  exact ⟨rfl, rfl, rfl⟩

/-- Claim C5: under referential integrity (`addr` is the address of entry
`i` of a collection of `count` entries based at `base`), the emitted index
property carries exactly the 0-based ordinal `i` (in particular a reference
to the first entry emits index 0 and is not treated as absent), and an
absent (`NULL`) reference emits nothing at all. -/
theorem claim_C5_idxprop_ordinal (c : cgltf_write_context) (label : String)
    (base count i addr : Nat) (href : addr = base + i) (hcount : i < count) :
    (cgltf_write_idxprop c label (some addr) base).out =
        c.out ++ indentChunks c ++ [intChunk label (i : Int)] ∧
    (cgltf_write_idxprop c label (some addr) base).needs_comma = true ∧
    cgltf_write_idxprop c label none base = c := by
  rw [idxprop_some]
  have hsub : (addr : Int) - (base : Int) = (i : Int) := by
    subst href
    push_cast
    ring
  rw [hsub]
  exact ⟨rfl, rfl, rfl⟩

/-- Witness for C5: a collection of 4 accessors based at address 100; a
reference to its first element (address 100, ordinal 0) emits index 0. -/
theorem claim_C5_witness :
    (cgltf_write_idxprop ctxW "indices" (some 100) 100).out =
        ctxW.out ++ indentChunks ctxW ++ [intChunk "indices" ((0 : Nat) : Int)] ∧
    (cgltf_write_idxprop ctxW "indices" (some 100) 100).needs_comma = true ∧
    cgltf_write_idxprop ctxW "indices" none 100 = ctxW :=
  claim_C5_idxprop_ordinal ctxW "indices" 100 4 0 100 rfl (by decide)

/-- Claim C7: the topology-mode integer property is emitted iff the mode
differs from the default triangles mode (4).  `cgltf_write_primitive` starts
with exactly `cgltf_write_intprop c "mode" prim.type 4`; that call is the
identity when the mode equals 4 and emits the `'mode': v` line otherwise. -/
theorem claim_C7_mode_default_suppressed (c : cgltf_write_context) (prim : cgltf_primitive) :
    cgltf_write_primitive c prim =
        primAfterMode (cgltf_write_intprop c "mode" prim.type 4) prim ∧
    (prim.type = 4 → cgltf_write_intprop c "mode" prim.type 4 = c) ∧
    (prim.type ≠ 4 →
      (cgltf_write_intprop c "mode" prim.type 4).out =
        c.out ++ indentChunks c ++ [intChunk "mode" prim.type]) := by
  refine ⟨rfl, ?_, ?_⟩
  · intro h
    rw [h]
    exact intprop_default c "mode" 4
  · intro h
    rw [intprop_ne c "mode" prim.type 4 h]

/-- Witness for C7: a triangles primitive (mode 4) emits nothing for the
mode property; a mode-5 primitive emits the `'mode': 5` line. -/
theorem claim_C7_witness :
    (cgltf_write_intprop ctxW "mode" (4 : Int) 4 = ctxW) ∧
    ((cgltf_write_intprop ctxW "mode" (5 : Int) 4).out =
      ctxW.out ++ indentChunks ctxW ++ [intChunk "mode" (5 : Int)]) :=
  ⟨(claim_C7_mode_default_suppressed ctxW ⟨4, none, none, []⟩).2.1 rfl,
   (claim_C7_mode_default_suppressed ctxW ⟨5, none, none, []⟩).2.2 (by decide)⟩

theorem sepCount_append (a b : List String) :
    sepCount (a ++ b) = sepCount a + sepCount b :=
  List.count_append _ _ _

theorem sepCount_indentChunks (c : cgltf_write_context) (hi : c.indent ≠ ",\n") :
    sepCount (indentChunks c) = if c.needs_comma = true then 1 else 0 := by
  cases hb : c.needs_comma <;>
    simp [indentChunks, sepCount, hb, List.count_replicate, List.count_cons] <;>
    intro h <;> exact absurd h hi

/-- Heads of the printed property chunks, for distinguishing them from the
separator chunk. -/
theorem strChunk_data (label v : String) :
    (strChunk label v).data =
      '\x27' :: (label.data ++ ('\x27' :: ':' :: ' ' :: '\x27' :: (v.data ++ ['\x27']))) := by
  simp only [strChunk, String.data_append, List.append_assoc]
  rfl

theorem intChunk_data (label : String) (z : Int) :
    (intChunk label z).data =
      '\x27' :: (label.data ++ ('\x27' :: ':' :: ' ' :: (toString z).data)) := by
  simp only [intChunk, String.data_append, List.append_assoc]
  rfl

theorem ne_of_data_head {s t : String} {c1 c2 : Char} {l1 l2 : List Char}
    (h1 : s.data = c1 :: l1) (h2 : t.data = c2 :: l2) (hne : c1 ≠ c2) : s ≠ t := by
  intro h
  rw [h, h2] at h1
  injection h1 with hc hl
  exact hne hc.symm

theorem strChunk_ne_sep (label v : String) : strChunk label v ≠ ",\n" :=
  ne_of_data_head (strChunk_data label v) rfl (by decide)

theorem intChunk_ne_sep (label : String) (z : Int) : intChunk label z ≠ ",\n" :=
  ne_of_data_head (intChunk_data label z) rfl (by decide)

theorem OpenLine_ne_sep {s : String} (h : OpenLine s) : s ≠ ",\n" := by
  intro he
  rw [he] at h
  exact absurd h.2 (by decide)

theorem CloseLine_ne_sep {s : String} (h : CloseLine s) : s ≠ ",\n" := by
  intro he
  rw [he] at h
  exact absurd h.1 (by decide)

theorem sepCount_single_ne {s : String} (h : s ≠ ",\n") : sepCount [s] = 0 := by
  simp [sepCount, List.count_cons]
  intro he
  exact absurd he h

theorem sepCount_cons_ne (s : String) (l : List String) (h : s ≠ ",\n") :
    sepCount (s :: l) = sepCount l := by
  simp [sepCount, List.count_cons]
  intro he
  exact absurd he h

theorem sepCount_replicate_ne (k : Nat) (ind : String) (h : ind ≠ ",\n") :
    sepCount (List.replicate k ind) = 0 := by
  simp [sepCount, List.count_replicate]
  intro he
  exact absurd he h

theorem runCalls_cons (c : cgltf_write_context) (e : EmitterCall) (calls : List EmitterCall) :
    runCalls c (e :: calls) = runCalls (runCall c e) calls := rfl

theorem runCalls_append (c : cgltf_write_context) (l1 l2 : List EmitterCall) :
    runCalls c (l1 ++ l2) = runCalls (runCalls c l1) l2 :=
  List.foldl_append runCall c l1 l2

theorem sepCount_close_chunks (k : Nat) (ind cl : String) (hind : ind ≠ ",\n")
    (hcl : cl ≠ ",\n") : sepCount (("\n" :: List.replicate k ind) ++ [cl]) = 0 := by
  rw [sepCount_append, sepCount_cons_ne _ _ (by decide), sepCount_replicate_ne _ _ hind,
    sepCount_single_ne hcl]

/-- Core invariant of the emitter state machine: running a well-formed
construct body preserves depth, indent and document; leaves the
pending-separator flag set exactly when the body is nonempty; and emits
exactly its `ChildSeq` separator total, plus one leading separator when a
separator was pending and the body is nonempty. -/
theorem runCalls_spec {calls : List EmitterCall} {n t a : Nat}
    (hd : ChildSeq calls n t a) :
    ∀ c : cgltf_write_context, c.indent ≠ ",\n" →
      (runCalls c calls).depth = c.depth ∧
      (runCalls c calls).indent = c.indent ∧
      (runCalls c calls).data = c.data ∧
      (runCalls c calls).needs_comma = (if n = 0 then c.needs_comma else true) ∧
      sepCount (runCalls c calls).out =
        sepCount c.out + a + (if c.needs_comma = true ∧ n ≠ 0 then 1 else 0) := by
  induction hd with
  | nil =>
      intro c hi
      simp [runCalls]
  | strp label v rest n t a hrest ih =>
      intro c hi
      rw [runCalls_cons]
      have hrc : runCall c (.strp label v) =
          (⟨c.out ++ indentChunks c ++ [strChunk label v], c.data, c.depth, c.indent, true⟩ :
            cgltf_write_context) := strprop_some c label v
      rw [hrc]
      obtain ⟨h1, h2, h3, h4, h5⟩ :=
        ih (⟨c.out ++ indentChunks c ++ [strChunk label v], c.data, c.depth, c.indent, true⟩ :
          cgltf_write_context) hi
      refine ⟨h1, h2, h3, ?_, ?_⟩
      · rw [h4]; cases n <;> simp
      · rw [h5]
        show sepCount (c.out ++ indentChunks c ++ [strChunk label v]) + a + _ = _
        rw [sepCount_append, sepCount_append, sepCount_indentChunks c hi,
          sepCount_single_ne (strChunk_ne_sep label v)]
        by_cases hn : n = 0 <;> cases hb : c.needs_comma <;> simp [hn, hb] <;> omega
  | intp label v d rest n t a hv hrest ih =>
      intro c hi
      rw [runCalls_cons]
      have hrc : runCall c (.intp label v d) =
          (⟨c.out ++ indentChunks c ++ [intChunk label v], c.data, c.depth, c.indent, true⟩ :
            cgltf_write_context) := intprop_ne c label v d hv
      rw [hrc]
      obtain ⟨h1, h2, h3, h4, h5⟩ :=
        ih (⟨c.out ++ indentChunks c ++ [intChunk label v], c.data, c.depth, c.indent, true⟩ :
          cgltf_write_context) hi
      refine ⟨h1, h2, h3, ?_, ?_⟩
      · rw [h4]; cases n <;> simp
      · rw [h5]
        show sepCount (c.out ++ indentChunks c ++ [intChunk label v]) + a + _ = _
        rw [sepCount_append, sepCount_append, sepCount_indentChunks c hi,
          sepCount_single_ne (intChunk_ne_sep label v)]
        by_cases hn : n = 0 <;> cases hb : c.needs_comma <;> simp [hn, hb] <;> omega
  | idxp label addr base rest n t a hrest ih =>
      intro c hi
      rw [runCalls_cons]
      have hrc : runCall c (.idxp label addr base) =
          (⟨c.out ++ indentChunks c ++ [intChunk label ((addr : Int) - (base : Int))],
            c.data, c.depth, c.indent, true⟩ : cgltf_write_context) :=
        idxprop_some c label addr base
      rw [hrc]
      obtain ⟨h1, h2, h3, h4, h5⟩ :=
        ih (⟨c.out ++ indentChunks c ++ [intChunk label ((addr : Int) - (base : Int))],
          c.data, c.depth, c.indent, true⟩ : cgltf_write_context) hi
      refine ⟨h1, h2, h3, ?_, ?_⟩
      · rw [h4]; cases n <;> simp
      · rw [h5]
        show sepCount (c.out ++ indentChunks c ++ [intChunk label _]) + a + _ = _
        rw [sepCount_append, sepCount_append, sepCount_indentChunks c hi,
          sepCount_single_ne (intChunk_ne_sep label _)]
        by_cases hn : n = 0 <;> cases hb : c.needs_comma <;> simp [hn, hb] <;> omega
  | construct o cl body rest m bt ba n t a ho hcl hbody hrest ihb ihr =>
      intro c hi
      rw [runCalls_cons]
      have hrc : runCall c (.line o) =
          (⟨c.out ++ indentChunks c ++ [o], c.data, c.depth + 1, c.indent, false⟩ :
            cgltf_write_context) := wl_open c o ho.1 ho.2
      rw [hrc, runCalls_append]
      obtain ⟨b1, b2, b3, b4, b5⟩ :=
        ihb (⟨c.out ++ indentChunks c ++ [o], c.data, c.depth + 1, c.indent, false⟩ :
          cgltf_write_context) hi
      generalize hgen : runCalls
        (⟨c.out ++ indentChunks c ++ [o], c.data, c.depth + 1, c.indent, false⟩ :
          cgltf_write_context) body = cb at b1 b2 b3 b4 b5 ⊢
      rw [runCalls_cons]
      have hrc2 : runCall cb (.line cl) =
          (⟨cb.out ++ (("\n" :: List.replicate (cb.depth - 1).toNat cb.indent) ++ [cl]),
            cb.data, cb.depth - 1, cb.indent, true⟩ : cgltf_write_context) :=
        wl_close cb cl hcl.1 hcl.2
      rw [hrc2]
      have hi2 : cb.indent ≠ ",\n" := by rw [b2]; exact hi
      obtain ⟨r1, r2, r3, r4, r5⟩ := ihr
        (⟨cb.out ++ (("\n" :: List.replicate (cb.depth - 1).toNat cb.indent) ++ [cl]),
          cb.data, cb.depth - 1, cb.indent, true⟩ : cgltf_write_context) hi2
      refine ⟨?_, ?_, ?_, ?_, ?_⟩
      · rw [r1]
        show cb.depth - 1 = c.depth
        rw [b1]
        show c.depth + 1 - 1 = c.depth
        omega
      · rw [r2]
        show cb.indent = c.indent
        exact b2
      · rw [r3]
        show cb.data = c.data
        exact b3
      · rw [r4]; cases n <;> simp
      · rw [r5]
        show sepCount (cb.out ++ (("\n" :: List.replicate (cb.depth - 1).toNat cb.indent)
            ++ [cl])) + a + _ = _
        rw [sepCount_append, sepCount_close_chunks _ _ _ hi2 (CloseLine_ne_sep hcl), b5]
        show sepCount (c.out ++ indentChunks c ++ [o]) + ba + _ + 0 + a + _ = _
        rw [sepCount_append, sepCount_append, sepCount_indentChunks c hi,
          sepCount_single_ne (OpenLine_ne_sep ho)]
        by_cases hn : n = 0 <;> cases hb : c.needs_comma <;> simp [hn, hb] <;> omega

/-- At each nesting level, a well-formed body of `n` children carries
`n - 1` own-level separators. -/
theorem ChildSeq_top {calls : List EmitterCall} {n t a : Nat}
    (hd : ChildSeq calls n t a) : t = n - 1 := by
  induction hd <;> omega

/-- Claim C3: for a well-formed construct body started with no pending
separator, the separators emitted between the body's own child lines number
exactly (children - 1) — the `ChildSeq` level count `t` — no separator
precedes the first child (the total emitted is exactly the `ChildSeq`
total `a`, which adds one separator per non-first child at each level and
nothing before first children), and closing the construct afterwards emits
no further separator. -/
theorem claim_C3_separator_count (c : cgltf_write_context) (calls : List EmitterCall)
    (n t a : Nat) (cl : String)
    (hfresh : c.needs_comma = false) (hi : c.indent ≠ ",\n")
    (hd : ChildSeq calls n t a) (hcl : CloseLine cl) :
    sepCount (runCalls c calls).out = sepCount c.out + a ∧
    t = n - 1 ∧
    sepCount (cgltf_write_line (runCalls c calls) cl).out = sepCount c.out + a := by
  obtain ⟨h1, h2, h3, h4, h5⟩ := runCalls_spec hd c hi
  refine ⟨?_, ChildSeq_top hd, ?_⟩
  · rw [h5, hfresh]
    simp
  · rw [wl_close _ _ hcl.1 hcl.2]
    show sepCount ((runCalls c calls).out ++ _) = _
    rw [sepCount_append,
      sepCount_close_chunks _ _ _ (by rw [h2]; exact hi) (CloseLine_ne_sep hcl), h5, hfresh]
    simp

/-- Witness for C3: a body of two emitted string properties produces exactly
one separator (2 - 1), and closing the construct adds none. -/
theorem claim_C3_witness :
    sepCount (runCalls ctxW [.strp "copyright" "c1", .strp "generator" "g"]).out =
        sepCount ctxW.out + 1 ∧
    (1 : Nat) = 2 - 1 ∧
    sepCount (cgltf_write_line
        (runCalls ctxW [.strp "copyright" "c1", .strp "generator" "g"]) "]").out =
      sepCount ctxW.out + 1 :=
  claim_C3_separator_count ctxW _ 2 1 1 "]" rfl (by decide)
    (ChildSeq.strp "copyright" "c1" _ 1 0 0
      (ChildSeq.strp "generator" "g" [] 0 0 0 ChildSeq.nil))
    (by decide)

/-- Claim C4: nesting is balanced — running a whole construct (opening line,
well-formed body, closing line) returns the depth to its starting value; a
line ending in an opening bracket increments depth by one; a line beginning
with a closing bracket decrements it by one. -/
theorem claim_C4_balanced_depth (c : cgltf_write_context) (calls : List EmitterCall)
    (n t a : Nat) (o cl : String)
    (hi : c.indent ≠ ",\n")
    (hd : ChildSeq calls n t a) (ho : OpenLine o) (hcl : CloseLine cl) :
    (runCalls c (.line o :: (calls ++ [.line cl]))).depth = c.depth ∧
    (cgltf_write_line c o).depth = c.depth + 1 ∧
    (cgltf_write_line c cl).depth = c.depth - 1 := by
  have hwhole : ChildSeq (.line o :: (calls ++ EmitterCall.line cl :: [])) (0 + 1)
      (0 + min 0 1) (0 + a + min 0 1) :=
    ChildSeq.construct o cl calls [] n t a 0 0 0 ho hcl hd ChildSeq.nil
  obtain ⟨h1, _, _, _, _⟩ := runCalls_spec hwhole c hi
  exact ⟨h1, by rw [wl_open c o ho.1 ho.2], by rw [wl_close c cl hcl.1 hcl.2]⟩

/-- Witness for C4: opening `'meshes': [` and closing `]` around an empty
body returns depth 1 to 1; the opener alone raises it to 2; a closer alone
lowers it to 0. -/
theorem claim_C4_witness :
    (runCalls ctxW [.line "\x27meshes\x27: [", .line "]"]).depth = ctxW.depth ∧
    (cgltf_write_line ctxW "\x27meshes\x27: [").depth = ctxW.depth + 1 ∧
    (cgltf_write_line ctxW "]").depth = ctxW.depth - 1 :=
  claim_C4_balanced_depth ctxW [] 0 0 0 "\x27meshes\x27: [" "]" (by decide)
    ChildSeq.nil (by decide) (by decide)

set_option maxRecDepth 1000000 in
/-- Claim C8: the output for `dataC8` contains the `'name': 'Plane'`,
`'indices': 0`, `'material': 1` lines, an `'attributes': [` block with
`'POSITION': 2` and `'NORMAL': 3`, and no `'mode'` line at all. -/
theorem claim_C8_plane_mesh_scenario :
    ("\x27name\x27: \x27Plane\x27" ∈ (cgltf_write_file optsW true dataC8).2) ∧
    ("\x27indices\x27: 0" ∈ (cgltf_write_file optsW true dataC8).2) ∧
    ("\x27material\x27: 1" ∈ (cgltf_write_file optsW true dataC8).2) ∧
    ("\x27attributes\x27: [" ∈ (cgltf_write_file optsW true dataC8).2) ∧
    ("\x27POSITION\x27: 2" ∈ (cgltf_write_file optsW true dataC8).2) ∧
    ("\x27NORMAL\x27: 3" ∈ (cgltf_write_file optsW true dataC8).2) ∧
    ((cgltf_write_file optsW true dataC8).2.all
      (fun s => !(List.isPrefixOf "\x27mode\x27".data s.data))) = true := by
  decide

theorem scanFrom_append (st : SepScan) (a b : List String) :
    scanFrom st (a ++ b) = scanFrom (scanFrom st a) b := by
  simp [scanFrom, List.foldl_append]

theorem scanFrom_cons (st : SepScan) (s : String) (l : List String) :
    scanFrom st (s :: l) = scanFrom (sepStep st (chunkKind s)) l := rfl

theorem scanFrom_ws_replicate (st : SepScan) (k : Nat) (ind : String)
    (h : chunkKind ind = .ws) : scanFrom st (List.replicate k ind) = st := by
  induction k with
  | zero => rfl
  | succ k ih =>
      rw [List.replicate_succ, scanFrom_cons, h]
      exact ih

theorem chunkKind_of_head {s : String} {ch : Char} {l : List Char}
    (h : s.data = ch :: l) (h1 : wsChar ch = false) (h2 : (ch = ']' || ch = '\x7d') = false)
    (h3 : ch ≠ ',') : chunkKind s = .other := by
  have hs : s ≠ ",\n" := ne_of_data_head h rfl h3
  rw [chunkKind, if_neg hs, h, List.find?_cons_of_pos _ (by simp [h1])]
  simp [h2]

theorem chunkKind_strChunk (label v : String) : chunkKind (strChunk label v) = .other :=
  chunkKind_of_head (strChunk_data label v) (by decide) (by decide) (by decide)

theorem chunkKind_intChunk (label : String) (z : Int) : chunkKind (intChunk label z) = .other :=
  chunkKind_of_head (intChunk_data label z) (by decide) (by decide) (by decide)

theorem scanFrom_indentChunks (st : SepScan) (c : cgltf_write_context)
    (h : chunkKind c.indent = .ws) :
    scanFrom st (indentChunks c) =
      (if c.needs_comma then (⟨st.bad, true⟩ : SepScan) else st) := by
  cases hb : c.needs_comma <;>
    simp only [indentChunks, hb, if_pos, if_neg, Bool.false_eq_true, ite_false, ite_true,
      List.singleton_append] <;>
    rw [scanFrom_cons, scanFrom_ws_replicate _ _ _ h] <;>
    rfl

theorem digitChar_isDigit : ∀ d : Nat, d < 10 → (Nat.digitChar d).isDigit = true := by decide

theorem toDigitsCore_chars (fuel : Nat) :
    ∀ (n : Nat) (acc : List Char), ∀ ch ∈ Nat.toDigitsCore 10 fuel n acc,
      ch ∈ acc ∨ ch.isDigit = true := by
  induction fuel with
  | zero =>
      intro n acc ch hch
      exact Or.inl hch
  | succ fuel ih =>
      intro n acc ch hch
      simp only [Nat.toDigitsCore] at hch
      split at hch
      · rcases List.mem_cons.mp hch with hq | hq
        · exact Or.inr (hq ▸ digitChar_isDigit _ (Nat.mod_lt _ (by decide)))
        · exact Or.inl hq
      · rcases ih _ _ ch hch with hq | hq
        · rcases List.mem_cons.mp hq with hr | hr
          · exact Or.inr (hr ▸ digitChar_isDigit _ (Nat.mod_lt _ (by decide)))
          · exact Or.inl hr
        · exact Or.inr hq

theorem toDigitsCore_ne_nil (fuel : Nat) :
    ∀ (n : Nat) (acc : List Char), acc ≠ [] → Nat.toDigitsCore 10 fuel n acc ≠ [] := by
  induction fuel with
  | zero =>
      intro n acc hacc
      exact hacc
  | succ fuel ih =>
      intro n acc hacc
      simp only [Nat.toDigitsCore]
      split
      · exact List.cons_ne_nil _ _
      · exact ih _ _ (List.cons_ne_nil _ _)

theorem toDigits_ne_nil (n : Nat) : Nat.toDigits 10 n ≠ [] := by
  rw [Nat.toDigits]
  simp only [Nat.toDigitsCore]
  split
  · exact List.cons_ne_nil _ _
  · exact toDigitsCore_ne_nil _ _ _ (List.cons_ne_nil _ _)

theorem nat_repr_data (n : Nat) : (Nat.repr n).data = Nat.toDigits 10 n := rfl

theorem int_toString_chars (z : Int) :
    ∀ ch ∈ (toString z).data, ch.isDigit = true ∨ ch = '-' := by
  cases z with
  | ofNat m =>
      intro ch hch
      rcases toDigitsCore_chars (m + 1) m [] ch hch with hq | hq
      · exact absurd hq (List.not_mem_nil ch)
      · exact Or.inl hq
  | negSucc m =>
      intro ch hch
      rw [show toString (Int.negSucc m) = "-" ++ Nat.repr (m + 1) from rfl,
        String.data_append] at hch
      rcases List.mem_append.mp hch with hq | hq
      · exact Or.inr (List.mem_singleton.mp hq)
      · rcases toDigitsCore_chars (m + 2) (m + 1) [] ch hq with hr | hr
        · exact absurd hr (List.not_mem_nil ch)
        · exact Or.inl hr

theorem int_toString_ne_nil (z : Int) : (toString z).data ≠ [] := by
  cases z with
  | ofNat m => exact toDigits_ne_nil m
  | negSucc m =>
      rw [show toString (Int.negSucc m) = "-" ++ Nat.repr (m + 1) from rfl,
        String.data_append]
      simp

/-- The chunk printed for an integer property never equals the asset-block
opening line: its last character is a digit, not an opening brace. -/
theorem intChunk_ne_assetLine (label : String) (z : Int) : intChunk label z ≠ assetLine := by
  intro h
  have hd := congrArg String.data h
  rw [show intChunk label z = ("\x27" ++ label ++ "\x27: ") ++ toString z from rfl,
    String.data_append] at hd
  have hlast := congrArg List.getLast? hd
  rw [List.getLast?_append_of_ne_nil _ (int_toString_ne_nil z)] at hlast
  have hin := List.mem_of_getLast?_eq_some (by
    rw [hlast]
    rfl)
  rcases int_toString_chars z _ hin with hq | hq
  · exact absurd hq (by decide)
  · exact absurd hq (by decide)

theorem ne_of_data_two {s t : String} {c1 d1 c2 d2 : Char} {l1 l2 : List Char}
    (h1 : s.data = c1 :: d1 :: l1) (h2 : t.data = c2 :: d2 :: l2)
    (hne : c1 ≠ c2 ∨ d1 ≠ d2) : s ≠ t := by
  intro h
  rw [h, h2] at h1
  injection h1 with ha hb
  injection hb with hb hc
  rcases hne with hq | hq
  · exact hq ha.symm
  · exact hq hb.symm

/-- A string property whose label does not start with `a` never prints the
asset-block opening line. -/
theorem strChunk_ne_assetLine {label : String} {ch : Char} {l : List Char}
    (h : label.data = ch :: l) (hch : ch ≠ 'a') (v : String) :
    strChunk label v ≠ assetLine := by
  have hs : (strChunk label v).data =
      '\x27' :: ch :: (l ++ ('\x27' :: ':' :: ' ' :: '\x27' :: (v.data ++ ['\x27']))) := by
    rw [strChunk_data, h]
    rfl
  exact ne_of_data_two hs rfl (Or.inr hch)

theorem mem_indentChunks {s : String} (c : cgltf_write_context)
    (h : s ∈ indentChunks c) : s = ",\n" ∨ s = "\n" ∨ s = c.indent := by
  cases hb : c.needs_comma <;> rw [indentChunks, hb] at h <;> simp at h <;>
    rcases h with h | h
  · exact Or.inr (Or.inl h)
  · exact Or.inr (Or.inr h.2)
  · exact Or.inl h
  · exact Or.inr (Or.inr h.2)

/-- The asset opening line is not among the indentation/separator chunks of
a good context. -/
theorem assetLine_not_mem_indentChunks (c : cgltf_write_context) (hind : c.indent = "  ") :
    assetLine ∉ indentChunks c := by
  intro h
  rcases mem_indentChunks c h with h | h | h
  · exact absurd h (by decide)
  · exact absurd h (by decide)
  · rw [hind] at h
    exact absurd h (by decide)

theorem scan_push_other (c : cgltf_write_context) (chunkl : String) (hg : GoodC c)
    (hk : chunkKind chunkl = .other) :
    scanChunks ((c.out ++ indentChunks c) ++ [chunkl]) = ⟨false, false⟩ := by
  obtain ⟨hind, hscan⟩ := hg
  rw [scanChunks, scanFrom_append, scanFrom_append,
    show scanFrom ⟨false, false⟩ c.out = ⟨false, false⟩ from hscan,
    scanFrom_indentChunks _ _ (by rw [hind]; decide)]
  cases hb : c.needs_comma <;> simp [hb, scanFrom_cons, hk, sepStep, scanFrom]

theorem scan_push_close (c : cgltf_write_context) (k : Nat) (cl : String) (hg : GoodC c)
    (hk : chunkKind cl = .closer ∨ chunkKind cl = .other) :
    scanChunks (c.out ++ (("\n" :: List.replicate k c.indent) ++ [cl])) = ⟨false, false⟩ := by
  obtain ⟨hind, hscan⟩ := hg
  have h1 : scanFrom ⟨false, false⟩ ("\n" :: List.replicate k c.indent) = ⟨false, false⟩ := by
    rw [scanFrom_cons, show chunkKind "\n" = ChunkKind.ws from rfl,
      show sepStep ⟨false, false⟩ ChunkKind.ws = ⟨false, false⟩ from rfl,
      scanFrom_ws_replicate _ _ _ (by rw [hind]; decide)]
  rw [scanChunks, scanFrom_append,
    show scanFrom ⟨false, false⟩ c.out = ⟨false, false⟩ from hscan, scanFrom_append, h1,
    scanFrom_cons]
  rcases hk with hk | hk <;> rw [hk] <;> rfl

theorem assetLine_mem_push (c : cgltf_write_context) (chunkl : String)
    (hind : c.indent = "  ") :
    assetLine ∈ (c.out ++ indentChunks c) ++ [chunkl] ↔
      assetLine ∈ c.out ∨ chunkl = assetLine := by
  rw [List.mem_append, List.mem_append, List.mem_singleton]
  constructor
  · rintro ((h | h) | h)
    · exact Or.inl h
    · exact absurd h (assetLine_not_mem_indentChunks c hind)
    · exact Or.inr h.symm
  · rintro (h | h)
    · exact Or.inl (Or.inl h)
    · exact Or.inr h.symm

theorem assetLine_mem_push_close (c : cgltf_write_context) (k : Nat) (cl : String)
    (hind : c.indent = "  ") (hcl : cl ≠ assetLine) :
    assetLine ∈ c.out ++ (("\n" :: List.replicate k c.indent) ++ [cl]) ↔
      assetLine ∈ c.out := by
  rw [List.mem_append]
  constructor
  · rintro (h | h)
    · exact h
    · rcases List.mem_cons.mp h with h | h
      · exact absurd h (by decide)
      · rcases List.mem_append.mp h with h | h
        · have h2 := List.eq_of_mem_replicate h
          rw [hind] at h2
          exact absurd h2 (by decide)
        · exact absurd (List.mem_singleton.mp h).symm hcl
  · exact Or.inl

theorem step_wl_open (c : cgltf_write_context) (line : String) (ho : OpenLine line)
    (hk : chunkKind line = .other) (hg : GoodC c) :
    GoodC (cgltf_write_line c line) ∧
      (assetLine ∈ (cgltf_write_line c line).out ↔ assetLine ∈ c.out ∨ line = assetLine) := by
  rw [wl_open c line ho.1 ho.2]
  exact ⟨⟨hg.1, scan_push_other c line hg hk⟩, assetLine_mem_push c line hg.1⟩

theorem step_wl_close (c : cgltf_write_context) (line : String) (hc : CloseLine line)
    (hk : chunkKind line = .closer ∨ chunkKind line = .other) (hne : line ≠ assetLine)
    (hg : GoodC c) :
    GoodC (cgltf_write_line c line) ∧
      (assetLine ∈ (cgltf_write_line c line).out ↔ assetLine ∈ c.out) := by
  rw [wl_close c line hc.1 hc.2]
  exact ⟨⟨hg.1, scan_push_close c _ line hg hk⟩,
    assetLine_mem_push_close c _ line hg.1 hne⟩

theorem step_strprop (c : cgltf_write_context) (label : String) (val : Option String)
    (hne : ∀ v, strChunk label v ≠ assetLine) (hg : GoodC c) :
    GoodC (cgltf_write_strprop c label val) ∧
      (assetLine ∈ (cgltf_write_strprop c label val).out ↔ assetLine ∈ c.out) := by
  cases val with
  | none => rw [strprop_none]; exact ⟨hg, Iff.rfl⟩
  | some v =>
      rw [strprop_some]
      refine ⟨⟨hg.1, scan_push_other c _ hg (chunkKind_strChunk label v)⟩, ?_⟩
      rw [show ((⟨c.out ++ indentChunks c ++ [strChunk label v], c.data, c.depth, c.indent,
        true⟩ : cgltf_write_context)).out = (c.out ++ indentChunks c) ++ [strChunk label v]
        from rfl, assetLine_mem_push c _ hg.1]
      exact or_iff_left (hne v)

theorem step_intprop (c : cgltf_write_context) (label : String) (v dflt : Int)
    (hg : GoodC c) :
    GoodC (cgltf_write_intprop c label v dflt) ∧
      (assetLine ∈ (cgltf_write_intprop c label v dflt).out ↔ assetLine ∈ c.out) := by
  by_cases hv : v = dflt
  · rw [hv, intprop_default]
    exact ⟨hg, Iff.rfl⟩
  · rw [intprop_ne c label v dflt hv]
    refine ⟨⟨hg.1, scan_push_other c _ hg (chunkKind_intChunk label v)⟩, ?_⟩
    rw [show ((⟨c.out ++ indentChunks c ++ [intChunk label v], c.data, c.depth, c.indent,
      true⟩ : cgltf_write_context)).out = (c.out ++ indentChunks c) ++ [intChunk label v]
      from rfl, assetLine_mem_push c _ hg.1]
    exact or_iff_left (intChunk_ne_assetLine label v)

theorem step_idxprop (c : cgltf_write_context) (label : String) (val : Option Nat)
    (start : Nat) (hg : GoodC c) :
    GoodC (cgltf_write_idxprop c label val start) ∧
      (assetLine ∈ (cgltf_write_idxprop c label val start).out ↔ assetLine ∈ c.out) := by
  cases val with
  | none => rw [idxprop_none]; exact ⟨hg, Iff.rfl⟩
  | some addr =>
      rw [idxprop_some]
      refine ⟨⟨hg.1, scan_push_other c _ hg (chunkKind_intChunk label _)⟩, ?_⟩
      rw [show ((⟨c.out ++ indentChunks c ++ [intChunk label ((addr : Int) - (start : Int))],
        c.data, c.depth, c.indent, true⟩ : cgltf_write_context)).out =
        (c.out ++ indentChunks c) ++ [intChunk label ((addr : Int) - (start : Int))]
        from rfl, assetLine_mem_push c _ hg.1]
      exact or_iff_left (intChunk_ne_assetLine label _)

theorem step_attrs (attrs : List cgltf_attribute) :
    ∀ c : cgltf_write_context, GoodC c →
      GoodC (attrs.foldl
        (fun acc attr => cgltf_write_idxprop acc attr.name attr.data acc.data.accessors) c) ∧
      (assetLine ∈ (attrs.foldl
          (fun acc attr => cgltf_write_idxprop acc attr.name attr.data acc.data.accessors)
          c).out ↔ assetLine ∈ c.out) := by
  induction attrs with
  | nil =>
      intro c hg
      exact ⟨hg, Iff.rfl⟩
  | cons attr rest ih =>
      intro c hg
      rw [List.foldl_cons]
      obtain ⟨hg1, hiff1⟩ := step_idxprop c attr.name attr.data c.data.accessors hg
      obtain ⟨hg2, hiff2⟩ := ih _ hg1
      exact ⟨hg2, hiff2.trans hiff1⟩

theorem step_prim (c : cgltf_write_context) (prim : cgltf_primitive) (hg : GoodC c) :
    GoodC (cgltf_write_primitive c prim) ∧
      (assetLine ∈ (cgltf_write_primitive c prim).out ↔ assetLine ∈ c.out) := by
  obtain ⟨hg1, hiff1⟩ := step_intprop c "mode" prim.type 4 hg
  obtain ⟨hg2, hiff2⟩ := step_idxprop (cgltf_write_intprop c "mode" prim.type 4) "indices"
    prim.indices (cgltf_write_intprop c "mode" prim.type 4).data.accessors hg1
  obtain ⟨hg3, hiff3⟩ := step_idxprop _ "material" prim.material
    (cgltf_write_idxprop (cgltf_write_intprop c "mode" prim.type 4) "indices" prim.indices
      (cgltf_write_intprop c "mode" prim.type 4).data.accessors).data.materials hg2
  obtain ⟨hg4, hiff4⟩ := step_wl_open _ "\x27attributes\x27: [" (by decide) (by decide) hg3
  obtain ⟨hg5, hiff5⟩ := step_attrs prim.attributes _ hg4
  obtain ⟨hg6, hiff6⟩ := step_wl_close _ "]" (by decide) (Or.inl (by decide)) (by decide) hg5
  exact ⟨hg6,
    hiff6.trans (hiff5.trans ((hiff4.trans (or_iff_left (by decide))).trans
      (hiff3.trans (hiff2.trans hiff1))))⟩

theorem step_prims (prims : List cgltf_primitive) :
    ∀ c : cgltf_write_context, GoodC c →
      GoodC (prims.foldl
        (fun acc p =>
          cgltf_write_line (cgltf_write_primitive (cgltf_write_line acc "\x7b") p) "\x7d")
        c) ∧
      (assetLine ∈ (prims.foldl
          (fun acc p =>
            cgltf_write_line (cgltf_write_primitive (cgltf_write_line acc "\x7b") p) "\x7d")
          c).out ↔ assetLine ∈ c.out) := by
  induction prims with
  | nil =>
      intro c hg
      exact ⟨hg, Iff.rfl⟩
  | cons p rest ih =>
      intro c hg
      rw [List.foldl_cons]
      obtain ⟨hg1, hiff1⟩ := step_wl_open c "\x7b" (by decide) (by decide) hg
      obtain ⟨hg2, hiff2⟩ := step_prim _ p hg1
      obtain ⟨hg3, hiff3⟩ := step_wl_close _ "\x7d" (by decide) (Or.inl (by decide))
        (by decide) hg2
      obtain ⟨hg4, hiff4⟩ := ih _ hg3
      exact ⟨hg4, hiff4.trans (hiff3.trans (hiff2.trans
        (hiff1.trans (or_iff_left (by decide)))))⟩

theorem step_mesh (c : cgltf_write_context) (mesh : cgltf_mesh) (hg : GoodC c) :
    GoodC (cgltf_write_mesh c mesh) ∧
      (assetLine ∈ (cgltf_write_mesh c mesh).out ↔ assetLine ∈ c.out) := by
  obtain ⟨hg1, hiff1⟩ := step_wl_open c "\x7b" (by decide) (by decide) hg
  obtain ⟨hg2, hiff2⟩ := step_strprop _ "name" mesh.name
    (strChunk_ne_assetLine rfl (by decide)) hg1
  obtain ⟨hg3, hiff3⟩ := step_wl_open _ "\x27primitives\x27: [" (by decide) (by decide) hg2
  obtain ⟨hg4, hiff4⟩ := step_prims mesh.primitives _ hg3
  obtain ⟨hg5, hiff5⟩ := step_wl_close _ "]" (by decide) (Or.inl (by decide)) (by decide) hg4
  obtain ⟨hg6, hiff6⟩ := step_wl_close _ "\x7d" (by decide) (Or.inl (by decide))
    (by decide) hg5
  exact ⟨hg6, hiff6.trans (hiff5.trans (hiff4.trans
    ((hiff3.trans (or_iff_left (by decide))).trans
      (hiff2.trans (hiff1.trans (or_iff_left (by decide)))))))⟩

theorem step_meshes (meshes : List cgltf_mesh) :
    ∀ c : cgltf_write_context, GoodC c →
      GoodC (meshes.foldl cgltf_write_mesh c) ∧
      (assetLine ∈ (meshes.foldl cgltf_write_mesh c).out ↔ assetLine ∈ c.out) := by
  induction meshes with
  | nil =>
      intro c hg
      exact ⟨hg, Iff.rfl⟩
  | cons m rest ih =>
      intro c hg
      rw [List.foldl_cons]
      obtain ⟨hg1, hiff1⟩ := step_mesh c m hg
      obtain ⟨hg2, hiff2⟩ := ih _ hg1
      exact ⟨hg2, hiff2.trans hiff1⟩

theorem step_asset (c : cgltf_write_context) (asset : cgltf_asset) (hg : GoodC c) :
    GoodC (cgltf_write_asset c asset) ∧ assetLine ∈ (cgltf_write_asset c asset).out := by
  obtain ⟨hg1, hiff1⟩ := step_wl_open c "\x27asset\x27: \x7b" (by decide) (by decide) hg
  obtain ⟨hg2, hiff2⟩ := step_strprop _ "copyright" asset.copyright
    (strChunk_ne_assetLine rfl (by decide)) hg1
  obtain ⟨hg3, hiff3⟩ := step_strprop _ "generator" asset.generator
    (strChunk_ne_assetLine rfl (by decide)) hg2
  obtain ⟨hg4, hiff4⟩ := step_strprop _ "version" asset.version
    (strChunk_ne_assetLine rfl (by decide)) hg3
  obtain ⟨hg5, hiff5⟩ := step_strprop _ "min_version" asset.min_version
    (strChunk_ne_assetLine rfl (by decide)) hg4
  obtain ⟨hg6, hiff6⟩ := step_wl_close _ "\x7d" (by decide) (Or.inl (by decide))
    (by decide) hg5
  refine ⟨hg6, ?_⟩
  apply hiff6.mpr
  apply hiff5.mpr
  apply hiff4.mpr
  apply hiff3.mpr
  apply hiff2.mpr
  exact hiff1.mpr (Or.inr rfl)

theorem step_fputs_final (c : cgltf_write_context) (hg : GoodC c) :
    GoodC (fputs "\n\x7d\n" c) ∧
      (assetLine ∈ (fputs "\n\x7d\n" c).out ↔ assetLine ∈ c.out) := by
  refine ⟨⟨hg.1, ?_⟩, ?_⟩
  · rw [show (fputs "\n\x7d\n" c).out = c.out ++ ["\n\x7d\n"] from rfl, scanChunks,
      scanFrom_append, show scanFrom ⟨false, false⟩ c.out = ⟨false, false⟩ from hg.2,
      scanFrom_cons, show chunkKind "\n\x7d\n" = ChunkKind.closer from rfl]
    rfl
  · rw [show (fputs "\n\x7d\n" c).out = c.out ++ ["\n\x7d\n"] from rfl, List.mem_append,
      List.mem_singleton]
    exact or_iff_left (by decide)

theorem step_pair (c : cgltf_write_context) (line : String) (ho : OpenLine line)
    (hk : chunkKind line = .other) (hne : line ≠ assetLine) (hg : GoodC c) :
    GoodC (cgltf_write_line (cgltf_write_line c line) "\x7d") ∧
      (assetLine ∈ (cgltf_write_line (cgltf_write_line c line) "\x7d").out ↔
        assetLine ∈ c.out) := by
  obtain ⟨hg1, hiff1⟩ := step_wl_open c line ho hk hg
  obtain ⟨hg2, hiff2⟩ := step_wl_close _ "\x7d" (by decide) (Or.inl (by decide))
    (by decide) hg1
  exact ⟨hg2, hiff2.trans (hiff1.trans (or_iff_left hne))⟩

/-- Walk of the whole document driver: the scan never finds a separator
immediately before a closing bracket, and the asset opening line is in the
output exactly when the source's asset condition holds. -/
theorem write_file_flow (o : cgltf_options) (ok : Bool) (d : cgltf_data) :
    scanChunks (cgltf_write_file o ok d).2 = ⟨false, false⟩ ∧
      ((assetLine ∈ (cgltf_write_file o ok d).2) ↔
        (d.asset.copyright.isSome || d.asset.generator.isSome || d.asset.version.isSome
          || d.asset.min_version.isSome) = true) := by
  have hout1 : (fputs "\x7b" (⟨[], d, 1, "  ", false⟩ : cgltf_write_context)).out =
      ["\x7b"] := rfl
  have hg1 : GoodC (fputs "\x7b" (⟨[], d, 1, "  ", false⟩ : cgltf_write_context)) :=
    ⟨rfl, by rw [hout1]; decide⟩
  have hA1 : assetLine ∉ (fputs "\x7b" (⟨[], d, 1, "  ", false⟩ :
      cgltf_write_context)).out := by
    rw [hout1]
    decide
  have hgIf : GoodC (if (d.asset.copyright.isSome || d.asset.generator.isSome
        || d.asset.version.isSome || d.asset.min_version.isSome) = true then
        cgltf_write_asset (fputs "\x7b" (⟨[], d, 1, "  ", false⟩ : cgltf_write_context))
          d.asset
      else fputs "\x7b" (⟨[], d, 1, "  ", false⟩ : cgltf_write_context)) ∧
      ((assetLine ∈ (if (d.asset.copyright.isSome || d.asset.generator.isSome
        || d.asset.version.isSome || d.asset.min_version.isSome) = true then
        cgltf_write_asset (fputs "\x7b" (⟨[], d, 1, "  ", false⟩ : cgltf_write_context))
          d.asset
      else fputs "\x7b" (⟨[], d, 1, "  ", false⟩ : cgltf_write_context)).out) ↔
        (d.asset.copyright.isSome || d.asset.generator.isSome || d.asset.version.isSome
          || d.asset.min_version.isSome) = true) := by
    by_cases hcond : (d.asset.copyright.isSome || d.asset.generator.isSome
        || d.asset.version.isSome || d.asset.min_version.isSome) = true
    · rw [if_pos hcond]
      obtain ⟨hga, hma⟩ := step_asset _ d.asset hg1
      exact ⟨hga, iff_of_true hma hcond⟩
    · rw [if_neg hcond]
      exact ⟨hg1, iff_of_false hA1 hcond⟩
  obtain ⟨hgIf, hAIf⟩ := hgIf
  obtain ⟨hg3, hiff3⟩ := step_wl_open _ "\x27meshes\x27: [" (by decide) (by decide) hgIf
  have hA3 := (hiff3.trans (or_iff_left (by decide))).trans hAIf
  obtain ⟨hg4, hiff4⟩ := step_meshes d.meshes _ hg3
  have hA4 := hiff4.trans hA3
  obtain ⟨hg5, hiff5⟩ := step_wl_close _ "]" (by decide) (Or.inl (by decide)) (by decide) hg4
  have hA5 := hiff5.trans hA4
  obtain ⟨hg7, hiff7⟩ := step_pair _ "\x27accessors\x27: \x7b" (by decide) (by decide)
    (by decide) hg5
  have hA7 := hiff7.trans hA5
  obtain ⟨hg9, hiff9⟩ := step_pair _ "\x27bufferViews\x27: \x7b" (by decide) (by decide)
    (by decide) hg7
  have hA9 := hiff9.trans hA7
  obtain ⟨hg11, hiff11⟩ := step_pair _ "\x27buffers\x27: \x7b" (by decide) (by decide)
    (by decide) hg9
  have hA11 := hiff11.trans hA9
  obtain ⟨hg13, hiff13⟩ := step_pair _ "\x27materials\x27: \x7b" (by decide) (by decide)
    (by decide) hg11
  have hA13 := hiff13.trans hA11
  obtain ⟨hg15, hiff15⟩ := step_pair _ "\x27images\x27: \x7b" (by decide) (by decide)
    (by decide) hg13
  have hA15 := hiff15.trans hA13
  obtain ⟨hg17, hiff17⟩ := step_pair _ "\x27textures\x27: \x7b" (by decide) (by decide)
    (by decide) hg15
  have hA17 := hiff17.trans hA15
  obtain ⟨hg19, hiff19⟩ := step_pair _ "\x27samplers\x27: \x7b" (by decide) (by decide)
    (by decide) hg17
  have hA19 := hiff19.trans hA17
  obtain ⟨hg21, hiff21⟩ := step_pair _ "\x27skins\x27: \x7b" (by decide) (by decide)
    (by decide) hg19
  have hA21 := hiff21.trans hA19
  obtain ⟨hg23, hiff23⟩ := step_pair _ "\x27cameras\x27: \x7b" (by decide) (by decide)
    (by decide) hg21
  have hA23 := hiff23.trans hA21
  obtain ⟨hg25, hiff25⟩ := step_pair _ "\x27nodes\x27: \x7b" (by decide) (by decide)
    (by decide) hg23
  have hA25 := hiff25.trans hA23
  obtain ⟨hg27, hiff27⟩ := step_pair _ "\x27scenes\x27: \x7b" (by decide) (by decide)
    (by decide) hg25
  have hA27 := hiff27.trans hA25
  obtain ⟨hg29, hiff29⟩ := step_pair _ "\x27scene\x27: \x7b" (by decide) (by decide)
    (by decide) hg27
  have hA29 := hiff29.trans hA27
  obtain ⟨hg31, hiff31⟩ := step_pair _ "\x27animations\x27: \x7b" (by decide) (by decide)
    (by decide) hg29
  have hA31 := hiff31.trans hA29
  obtain ⟨hg32, hiff32⟩ := step_fputs_final _ hg31
  have hA32 := hiff32.trans hA31
  exact ⟨hg32.2, hA32⟩

/-- Claim C6 as amended: the asset block is present in the output iff at
least one of the four asset fields is present (non-null) — the source's
condition `copyright || generator || version || min_version` is a
null-pointer test, so a field holding an empty string still triggers the
block. -/
theorem claim_C6_asset_block_iff_field_present :
    ∀ (o : cgltf_options) (ok : Bool) (d : cgltf_data),
      (assetLine ∈ (cgltf_write_file o ok d).2) ↔
        (d.asset.copyright.isSome || d.asset.generator.isSome || d.asset.version.isSome
          || d.asset.min_version.isSome) = true :=
  fun o ok d => (write_file_flow o ok d).2

set_option maxRecDepth 1000000 in
/-- Claim C6 counterexample: for `dataE` no asset field is non-empty (the
only present field is the empty string), yet the asset block is emitted —
so "present iff at least one field is non-empty" fails as stated. -/
theorem claim_C6_counterexample :
    (assetLine ∈ (cgltf_write_file optsW true dataE).2) ∧
      (assetFieldNonEmpty dataE.asset.copyright || assetFieldNonEmpty dataE.asset.generator
        || assetFieldNonEmpty dataE.asset.version
        || assetFieldNonEmpty dataE.asset.min_version) = false := by
  constructor
  · decide
  · rfl

/-- Claim C9 counterexample: the claim asserts that for some input document
the produced text contains an item separator immediately preceding a closing
bracket; in fact no document produces one — `cgltf_write_line` clears the
pending separator before emitting any closing line, so the separator is
suppressed at emission time. -/
theorem claim_C9_counterexample :
    ¬ ∃ (o : cgltf_options) (ok : Bool) (d : cgltf_data),
        sepBeforeCloser (cgltf_write_file o ok d).2 := by
  rintro ⟨o, ok, d, h⟩
  rw [sepBeforeCloser, (write_file_flow o ok d).1] at h
  exact absurd h (by decide)

/-- Claim C9 as amended: the writer never emits an item separator
immediately preceding a closing bracket (for every options, path and
document the separator-before-closer scan of the output reports nothing):
separators are suppressed when a closing line is emitted, not stripped
afterwards. -/
theorem claim_C9_never_sep_before_closer :
    ∀ (o : cgltf_options) (ok : Bool) (d : cgltf_data),
      (scanChunks (cgltf_write_file o ok d).2).bad = false := by
  intro o ok d
  rw [(write_file_flow o ok d).1]
